import Mathlib

/-
Verification of the pattern-resolution and change-tracking pipeline of the
copy plugin.  The development shallowly embeds the two source files:

  * the plugin entry (factory, emit pass, toLooksLikeDirectory,
    writeFileToAssets, writeDirectoryToAssets, shouldIgnore), and
  * postProcessPattern (content pipeline, transform cache, write decision).

Filesystem access, glob expansion, the minimatch ignore matcher, the content
hash digest and the on-disk transform cache are external collaborators; they
enter the model as explicit parameters (a record of functions for the
filesystem, a matcher function for minimatch, an association list for the
cache store).  Paths are POSIX style; the path helpers model the Node path
functions on the dot-dot-free inputs this plugin feeds them, with the process
working directory passed explicitly where Node would consult it.
-/

/-! ### Association list helpers (JS object property tables)

A JS object used as a map keeps first-insertion order and overwrites in
place; `setA` mirrors that, `lookupA` mirrors property lookup. -/

def lookupA {α : Type} : List (String × α) → String → Option α
  | [], _ => none
  | (k, v) :: rest, key => if k = key then some v else lookupA rest key

def setA {α : Type} : List (String × α) → String → α → List (String × α)
  | [], key, v => [(key, v)]
  | (k, w) :: rest, key, v =>
    if k = key then (k, v) :: rest else (k, w) :: setA rest key v

def keysA {α : Type} (l : List (String × α)) : List String := l.map Prod.fst

/-! ### POSIX path model

Node path functions, modelled on component lists.  The model covers the
inputs the plugin produces: no dot-dot segments, the working directory is
absolute.  Dot segments and empty segments are dropped during joins and
resolution, matching Node normalization. -/

def strIsAbs (s : String) : Bool :=
  match s.data with
  | [] => false
  | c :: _ => c = '/'

def strLastChar (s : String) : Option Char := s.data.getLast?

def strDropHead (s : String) : String := String.mk (s.data.drop 1)

def splitOnSlashAux : List Char → List Char → List (List Char)
  | [], acc => [acc.reverse]
  | c :: rest, acc =>
    if c = '/' then acc.reverse :: splitOnSlashAux rest []
    else splitOnSlashAux rest (c :: acc)

def splitParts (s : String) : List String :=
  ((splitOnSlashAux s.data []).map String.mk).filter (fun c => c ≠ "" && c ≠ ".")

def joinWithSlash : List String → String
  | [] => ""
  | [p] => p
  | p :: q :: rest => p ++ "/" ++ joinWithSlash (q :: rest)

/-- Node path.join for two segments (normalizing, dot-dot-free inputs). -/
def posixJoin (a b : String) : String :=
  let core := joinWithSlash (splitParts a ++ splitParts b)
  if strIsAbs a then "/" ++ core else core

/-- Node path.basename (dot-dot-free inputs). -/
def posixBasename (s : String) : String :=
  ((splitParts s).getLast?).getD ""

/-- Node path.dirname, for the relative dot-dot-free paths the plugin
feeds it (glob matches relative to the base directory). -/
def posixDirname (s : String) : String :=
  let ps := splitParts s
  match ps with
  | [] => "."
  | [_] => "."
  | _ => joinWithSlash ps.dropLast

def lastDotIdxAux : List Char → Nat → Option Nat → Option Nat
  | [], _, best => best
  | c :: rest, i, best =>
    lastDotIdxAux rest (i + 1) (if c = '.' then some i else best)

/-- Node path.extname: extension of the basename, empty for a dotfile or a
dotless name. -/
def posixExtname (s : String) : String :=
  let b := posixBasename s
  match lastDotIdxAux b.data 0 none with
  | none => ""
  | some 0 => ""
  | some i => String.mk (b.data.drop i)

/-- Node path.resolve cwd p1 p2 ... : fold right-most absolute wins; the
working directory is the first argument and is assumed absolute. -/
def resolveParts (cwd : String) (ps : List String) : List String :=
  ps.foldl (fun acc p => if strIsAbs p then splitParts p else acc ++ splitParts p)
    (splitParts cwd)

def posixResolveStr (cwd : String) (ps : List String) : String :=
  "/" ++ joinWithSlash (resolveParts cwd ps)

def dropCommonLead : List String → List String → List String × List String
  | a :: as, b :: bs =>
    if a = b then dropCommonLead as bs else (a :: as, b :: bs)
  | as, bs => (as, bs)

/-- Node path.relative: both arguments resolved against the working
directory, then the shared lead is dropped. -/
def posixRelativeStr (cwd fromP toP : String) : String :=
  let f := resolveParts cwd [fromP]
  let t := resolveParts cwd [toP]
  let dropped := dropCommonLead f t
  joinWithSlash (List.replicate dropped.1.length ".." ++ dropped.2)

/-! ### Plugin entry model (factory and emit pass) -/

/-- One declarative copy pattern, as read by the plugin entry.  The fields
are the ones the emit pass consults: from, to, toType, force. -/
structure Pattern where
  fromSrc : String
  toDest : Option String
  toType : Option String
  force : Bool
deriving DecidableEq

/-- Errors surfaced by the filesystem collaborators. -/
inductive IOErr where
  | notFound
  | accessDenied
  | other (msg : String)
deriving DecidableEq

/-- A stat result: directory flag, mtime tick, byte size. -/
structure NStat where
  isDir : Bool
  mtime : Nat
  size : Nat
deriving DecidableEq

/-- The filesystem collaborators the emit pass consumes: stat, glob
expansion (pattern, cwd), recursive directory listing. -/
structure FS where
  stat : String → Except IOErr NStat
  glob : String → String → Except IOErr (List String)
  listFiles : String → Except IOErr (List String)

/-- An asset entry committed by the emit pass: the recorded stat size and
the absolute source path whose bytes source() reads lazily. -/
structure PAsset where
  size : Nat
  absFileSrc : String
deriving DecidableEq

/-- A direct filesystem copy issued for an absolute destination, bypassing
the asset table. -/
inductive CopyEffect where
  | directCopy (src dest : String)
deriving DecidableEq

/-- The mutable state the emit pass touches: the compilation asset table and
error list, the dependency lists, and the log of direct copies issued. -/
structure EmitState where
  assets : List (String × PAsset)
  fileDependencies : List String
  contextDependencies : List String
  effects : List CopyEffect
  errors : List IOErr
deriving DecidableEq

/-- toLooksLikeDirectory: destination has no extension, or ends in the path
separator, or toType is dir — and toType is not file.  A missing to is
coerced like JS does (extname of the coerced value is empty, its last
character is not the separator), which the empty string reproduces. -/
def toLooksLikeDirectory (p : Pattern) : Bool :=
  let filename := p.toDest.getD ""
  ((posixExtname filename == "") || (strLastChar filename == some '/')
      || (p.toType == some "dir"))
    && !(p.toType == some "file")

/-- shouldIgnore: lodash find of the first glob the matcher accepts, then a
JS truthiness test on the found glob string (the empty string is falsy).
The matcher m stands for minimatch with matchBase and dot enabled. -/
def shouldIgnore (m : String → String → Bool) (pathName : String)
    (ignoreList : List String) : Bool :=
  match ignoreList.find? (fun glob => m pathName glob) with
  | some matched => matched ≠ ""
  | none => false

/-- writeFileToAssets: skip when the destination already has an asset and
force is off; otherwise stat the source and commit the entry only when its
mtime is newer than the last global update. -/
def writeFileToAssets (fs : FS) (assets : List (String × PAsset))
    (relFileDest absFileSrc : String) (forceWrite : Bool)
    (lastGlobalUpdate : Nat) : Except IOErr (List (String × PAsset)) :=
  if (lookupA assets relFileDest).isSome && !forceWrite then .ok assets
  else
    match fs.stat absFileSrc with
    | .error e => .error e
    | .ok st =>
      .ok (if lastGlobalUpdate < st.mtime then
        setA assets relFileDest ⟨st.size, absFileSrc⟩
      else assets)

/-- The body of the glob branch for one matched relative path: ignore
filter, dependency push, the absolute-destination direct copy, otherwise
destination computation and writeFileToAssets.  Returns the new state and
the rejection, when one occurred. -/
def processGlobMatch (m : String → String → Bool) (fs : FS)
    (baseDir cwd : String) (ignoreList : List String)
    (lastGlobalUpdate : Nat) (pattern : Pattern) (statFound : Bool)
    (st : EmitState) (relFileSrc : String) : EmitState × Option IOErr :=
  if shouldIgnore m relFileSrc ignoreList then (st, none)
  else
    let absFileSrc := posixResolveStr cwd [baseDir, relFileSrc]
    let st1 := { st with fileDependencies := st.fileDependencies ++ [absFileSrc] }
    let relDest := pattern.toDest.getD ""
    if strIsAbs relDest then
      let dest :=
        if toLooksLikeDirectory pattern then
          posixJoin relDest (posixBasename absFileSrc)
        else relDest
      ({ st1 with effects := st1.effects ++ [.directCopy absFileSrc dest] }, none)
    else
      let relFileDirname := posixDirname relFileSrc
      let relFileDest :=
        if !statFound && decide (relFileDirname ≠ baseDir) then
          posixJoin (posixRelativeStr cwd baseDir relFileDirname)
            (posixBasename relFileSrc)
        else if toLooksLikeDirectory pattern then
          posixJoin relDest (posixBasename relFileSrc)
        else if relDest ≠ "" then relDest
        else posixBasename relFileSrc
      match writeFileToAssets fs st1.assets relFileDest absFileSrc
          pattern.force lastGlobalUpdate with
      | .ok assets' => ({ st1 with assets := assets' }, none)
      | .error e => (st1, some e)

/-- Sequential processing of the glob matches of one pattern, stopping at
the first rejection (bluebird each). -/
def processGlobFiles (m : String → String → Bool) (fs : FS)
    (baseDir cwd : String) (ignoreList : List String)
    (lastGlobalUpdate : Nat) (pattern : Pattern) (statFound : Bool) :
    List String → EmitState → EmitState × Option IOErr
  | [], st => (st, none)
  | f :: rest, st =>
    match processGlobMatch m fs baseDir cwd ignoreList lastGlobalUpdate
        pattern statFound st f with
    | (st', none) =>
      processGlobFiles m fs baseDir cwd ignoreList lastGlobalUpdate pattern
        statFound rest st'
    | (st', some e) => (st', some e)

/-- Per-file body of writeDirectoryToAssets: destination is to joined with
the path of the file relative to the listed directory, a leading separator
stripped, after the ignore filter. -/
def writeDirFiles (m : String → String → Bool) (fs : FS) (cwd : String)
    (ignoreList : List String) (lastGlobalUpdate : Nat)
    (relDirDest absDirSrc : String) (forceWrite : Bool) :
    List String → List (String × PAsset) →
    List (String × PAsset) × Option IOErr
  | [], assets => (assets, none)
  | absFileSrc :: rest, assets =>
    let relFileSrc := posixRelativeStr cwd absDirSrc absFileSrc
    let relFileDest0 := posixJoin relDirDest relFileSrc
    if shouldIgnore m relFileSrc ignoreList then
      writeDirFiles m fs cwd ignoreList lastGlobalUpdate relDirDest absDirSrc
        forceWrite rest assets
    else
      let relFileDest :=
        if strIsAbs relFileDest0 then strDropHead relFileDest0 else relFileDest0
      match writeFileToAssets fs assets relFileDest absFileSrc forceWrite
          lastGlobalUpdate with
      | .ok assets' =>
        writeDirFiles m fs cwd ignoreList lastGlobalUpdate relDirDest absDirSrc
          forceWrite rest assets'
      | .error e => (assets, some e)

/-- writeDirectoryToAssets: list the directory recursively and fold the
per-file body over the listing. -/
def writeDirectoryToAssets (m : String → String → Bool) (fs : FS)
    (cwd : String) (ignoreList : List String) (lastGlobalUpdate : Nat)
    (assets : List (String × PAsset)) (absDirSrc relDirDest : String)
    (forceWrite : Bool) : List (String × PAsset) × Option IOErr :=
  match fs.listFiles absDirSrc with
  | .error e => (assets, some e)
  | .ok files =>
    writeDirFiles m fs cwd ignoreList lastGlobalUpdate relDirDest absDirSrc
      forceWrite files assets

/-- The glob branch of one pattern: expand the glob against the base
directory and process each match. -/
def processGlobBranch (m : String → String → Bool) (fs : FS)
    (baseDir cwd : String) (ignoreList : List String)
    (lastGlobalUpdate : Nat) (pattern : Pattern) (statFound : Bool)
    (st : EmitState) : EmitState × Option IOErr :=
  match fs.glob pattern.fromSrc baseDir with
  | .error e => (st, some e)
  | .ok files =>
    processGlobFiles m fs baseDir cwd ignoreList lastGlobalUpdate pattern
      statFound files st

/-- Processing of one pattern in the emit pass.  The stat of the resolved
source is caught wholesale: any failure, of any kind, leaves a null stat and
the pattern falls through to the glob branch.  A null or non-directory stat
takes the glob branch; a directory stat takes the directory branch, with a
direct copy when the destination is absolute and looks like a directory. -/
def processPattern (m : String → String → Bool) (fs : FS)
    (baseDir cwd : String) (ignoreList : List String)
    (lastGlobalUpdate : Nat) (st : EmitState) (pattern : Pattern) :
    EmitState × Option IOErr :=
  let absSrc := posixResolveStr cwd [baseDir, pattern.fromSrc]
  let relDest := pattern.toDest.getD ""
  let statOpt : Option NStat :=
    match fs.stat absSrc with
    | .ok s => some s
    | .error _ => none
  match statOpt with
  | some s =>
    if s.isDir then
      let st1 := { st with
        contextDependencies := st.contextDependencies ++ [absSrc] }
      if strIsAbs relDest && toLooksLikeDirectory pattern then
        ({ st1 with effects := st1.effects ++ [.directCopy absSrc relDest] }, none)
      else
        match writeDirectoryToAssets m fs cwd ignoreList lastGlobalUpdate
            st1.assets absSrc relDest pattern.force with
        | (assets', none) => ({ st1 with assets := assets' }, none)
        | (assets', some e) => ({ st1 with assets := assets' }, some e)
    else
      processGlobBranch m fs baseDir cwd ignoreList lastGlobalUpdate pattern
        true st
  | none =>
    processGlobBranch m fs baseDir cwd ignoreList lastGlobalUpdate pattern
      false st

/-- The emit pass: patterns in declared order, stopping at the first
rejection, which is pushed onto the compilation error list (the outer
catch); earlier mutations are retained. -/
def runEmit (m : String → String → Bool) (fs : FS) (baseDir cwd : String)
    (ignoreList : List String) (lastGlobalUpdate : Nat) :
    List Pattern → EmitState → EmitState
  | [], st => st
  | p :: rest, st =>
    match processPattern m fs baseDir cwd ignoreList lastGlobalUpdate st p with
    | (st', none) =>
      runEmit m fs baseDir cwd ignoreList lastGlobalUpdate rest st'
    | (st', some e) => { st' with errors := st'.errors ++ [e] }

/-- The shape of the patterns argument the factory receives: undefined, an
array, or any other value. -/
inductive PatternsArg where
  | undef
  | arr (ps : List Pattern)
  | notAnArray (desc : String)

/-- The plugin factory: undefined becomes the empty list, a non-array
throws synchronously, an array is accepted.  The factory is pure; all
filesystem work lives in the emit pass it configures. -/
def copyWebpackPlugin : PatternsArg → Except String (List Pattern)
  | .undef => .ok []
  | .arr ps => .ok ps
  | .notAnArray _ => .error "CopyWebpackPlugin: patterns must be an array"

/-- Model of the external minimatch matcher on the fragment this
development instantiates it with: a pattern starting with the comment
character matches nothing; a pattern that is blank after trimming matches
only the empty path (the minimatch top-level shortcut, stable across the
versions this plugin depends on); a metacharacter-free pattern with
matchBase enabled is compared against the whole path when it contains a
separator and against the basename otherwise. -/
def minimatchModel (p pattern : String) : Bool :=
  match pattern.data with
  | [] => p == ""
  | c :: _ =>
    if c = '#' then false
    else if pattern.data.all Char.isWhitespace then p == ""
    else if pattern.data.contains '/' then p == pattern
    else posixBasename p == pattern

/-! ### postProcessPattern model (content pipeline and write decision)

The newer write pipeline: per resolved file, stat, read, optional transform
with an optional persistent cache, then the write decision against the
process-lifetime write history and the compilation asset table.  The
destination-template and path-transform stages are external path rewrites
(loader-utils interpolation, a user callback) applied to the destination
key before the write decision; the model therefore receives the already
final destination key.  The content hash digest is an external collaborator
passed as a function. -/

def isSlashChar (c : Char) : Bool := c = '/' || c = '\\'

mutual

def npSeg : List Char → List Char → List String
  | [], acc => [String.mk acc.reverse]
  | c :: rest, acc =>
    if isSlashChar c then String.mk acc.reverse :: npRun rest
    else npSeg rest (c :: acc)

def npRun : List Char → List String
  | [] => [""]
  | c :: rest => if isSlashChar c then npRun rest else npSeg rest [c]

end

/-- The normalize-path collaborator: slashes unified to forward slashes,
runs of slashes collapsed, a trailing slash stripped (the win32 namespace
prefix special case is out of the modelled domain). -/
def normalizePath (s : String) : String :=
  if s = "\\" || s = "/" then "/"
  else if s.data.length ≤ 1 then s
  else
    let segs := npSeg s.data []
    let segs := if segs.getLast? == some "" then segs.dropLast else segs
    joinWithSlash segs

/-- An asset entry committed by the write decision: the recorded size and
the final content bytes source() returns. -/
structure AssetEntry where
  size : Nat
  source : List Nat
deriving DecidableEq

/-- The state the write decision mutates: the process-lifetime write
history (destination key → source path → content hash) and the compilation
asset table. -/
structure PPState where
  written : List (String × List (String × String))
  assets : List (String × AssetEntry)
deriving DecidableEq

def getWritten (w : List (String × List (String × String)))
    (dest src : String) : Option String :=
  match lookupA w dest with
  | none => none
  | some m => lookupA m src

def setWritten (w : List (String × List (String × String)))
    (dest src hash : String) : List (String × List (String × String)) :=
  match lookupA w dest with
  | none => setA w dest [(src, hash)]
  | some m => setA w dest (setA m src hash)

/-- The skip test of the write decision, including the JS truthiness test
on the stored hash string. -/
def histMatch (w : List (String × List (String × String)))
    (dest src hash : String) : Bool :=
  match getWritten w dest src with
  | some h => (h != "") && (h == hash)
  | none => false

/-- The write decision for one resolved file: skip on a write-history hash
match unless copyUnmodified; otherwise record the history entry, then skip
the asset write when the destination already has an asset and force is off;
otherwise commit the entry (stat size, final bytes).  The second component
reports whether an asset was committed. -/
def postProcessWrite (copyUnmodified : Bool) (webpackTo absoluteFrom : String)
    (force : Bool) (hash : String) (statSize : Nat) (content : List Nat)
    (st : PPState) : PPState × Bool :=
  if !copyUnmodified && histMatch st.written webpackTo absoluteFrom hash then
    (st, false)
  else
    let written' := setWritten st.written webpackTo absoluteFrom hash
    let assetFilename := normalizePath webpackTo
    if (lookupA st.assets assetFilename).isSome && !force then
      ({ written := written', assets := st.assets }, false)
    else
      ({ written := written',
         assets := setA st.assets assetFilename ⟨statSize, content⟩ }, true)

/-- One resolved file reaching the write decision, with its content hash
(the digest of its final bytes, unchanged while the source content and the
transform are unchanged). -/
structure ResolvedWrite where
  webpackTo : String
  absoluteFrom : String
  force : Bool
  hash : String
  statSize : Nat
  content : List Nat
deriving DecidableEq

/-- One pass of write decisions over the resolved files, in processing
order; the second component logs the asset keys committed. -/
def runPass (copyUnmodified : Bool) :
    List ResolvedWrite → PPState → PPState × List String
  | [], st => (st, [])
  | it :: rest, st =>
    let step := postProcessWrite copyUnmodified it.webpackTo it.absoluteFrom
      it.force it.hash it.statSize it.content st
    let next := runPass copyUnmodified rest step.1
    (next.1, (if step.2 then [normalizePath it.webpackTo] else []) ++ next.2)

/-- The transform cache key: the explicit override when the pattern
supplies one, otherwise the serialization of the plugin identity, the
pattern and the md4 digest of the input content (modelled as a tagged
concatenation of the pattern identity and the content digest). -/
def computeCacheKey (keyOverride : Option String)
    (patternId contentHash : String) : String :=
  match keyOverride with
  | some k => k
  | none => "copy-webpack-plugin-" ++ patternId ++ "-" ++ contentHash

/-- The transform stage for a pattern with a transform: with the cache
enabled, a store hit returns the cached bytes without invoking the
transform, a miss invokes it and stores the result under the key before
continuing; with the cache disabled the transform is invoked directly.
Returns the store, the output bytes, and the number of transform
invocations performed. -/
def transformStage (t : List Nat → List Nat) (cacheEnabled : Bool)
    (cacheKey : String) (store : List (String × List Nat))
    (content : List Nat) : List (String × List Nat) × List Nat × Nat :=
  if cacheEnabled then
    match lookupA store cacheKey with
    | some data => (store, data, 0)
    | none =>
      let out := t content
      (setA store cacheKey out, out, 1)
  else (store, t content, 1)

/-- The content stage: identity without a transform, the transform stage
otherwise. -/
def contentStage (transform : Option (List Nat → List Nat))
    (cacheEnabled : Bool) (cacheKey : String)
    (store : List (String × List Nat)) (raw : List Nat) :
    List (String × List Nat) × List Nat × Nat :=
  match transform with
  | none => (store, raw, 0)
  | some t => transformStage t cacheEnabled cacheKey store raw

/-- The stat result postProcessPattern works from. -/
structure PPStats where
  isDir : Bool
  size : Nat
deriving DecidableEq

/-- postProcessPattern for one resolved file: directories are skipped, the
content stage produces the final bytes, their digest feeds the write
decision.  Returns the cache store, the write-decision state, whether an
asset was committed, and the number of transform invocations. -/
def postProcessFile (copyUnmodified : Bool)
    (transform : Option (List Nat → List Nat)) (cacheEnabled : Bool)
    (cacheKey : String) (hashFn : List Nat → String)
    (webpackTo absoluteFrom : String) (force : Bool) (stats : PPStats)
    (raw : List Nat) (store : List (String × List Nat)) (st : PPState) :
    (List (String × List Nat)) × PPState × Bool × Nat :=
  if stats.isDir then (store, st, false, 0)
  else
    let staged := contentStage transform cacheEnabled cacheKey store raw
    let content := staged.2.1
    let decided := postProcessWrite copyUnmodified webpackTo absoluteFrom force
      (hashFn content) stats.size content st
    (staged.1, decided.1, decided.2, staged.2.2)


/-! ### Helper lemmas -/

theorem lookupA_setA_self {α : Type} (l : List (String × α)) (k : String)
    (v : α) : lookupA (setA l k v) k = some v := by
  induction l with
  | nil => simp [setA, lookupA]
  | cons hd tl ih =>
    obtain ⟨k', v'⟩ := hd
    by_cases h : k' = k
    · simp [setA, h, lookupA]
    · simp [setA, h, lookupA, ih]

theorem lookupA_setA_ne {α : Type} (l : List (String × α)) (k k' : String)
    (v : α) (h : k' ≠ k) : lookupA (setA l k v) k' = lookupA l k' := by
  induction l with
  | nil =>
    simp [setA, lookupA]
    exact fun hh => h hh.symm
  | cons hd tl ih =>
    obtain ⟨k0, v0⟩ := hd
    by_cases h0 : k0 = k
    · subst h0
      have hne' : ¬k0 = k' := fun hh => h hh.symm
      simp [setA, lookupA, hne']
    · simp [setA, h0, lookupA, ih]

theorem getWritten_set_self (w : List (String × List (String × String)))
    (d s h : String) : getWritten (setWritten w d s h) d s = some h := by
  unfold getWritten setWritten
  cases hw : lookupA w d with
  | none => simp [lookupA_setA_self, lookupA]
  | some m => simp [lookupA_setA_self]

theorem getWritten_set_other (w : List (String × List (String × String)))
    (d s h d' s' : String) (hne : ¬(d' = d ∧ s' = s)) :
    getWritten (setWritten w d s h) d' s' = getWritten w d' s' := by
  by_cases hd : d' = d
  · subst hd
    have hs : s' ≠ s := fun hh => hne ⟨rfl, hh⟩
    unfold getWritten setWritten
    have hs' : ¬s = s' := fun hh => hs hh.symm
    cases hw : lookupA w d' with
    | none => simp [hw, lookupA_setA_self, lookupA, hs']
    | some m => simp [hw, lookupA_setA_self, lookupA_setA_ne _ _ _ _ hs]
  · unfold getWritten setWritten
    cases hw : lookupA w d with
    | none => simp [hw, lookupA_setA_ne _ _ _ _ hd]
    | some m => simp [lookupA_setA_ne _ _ _ _ hd]

theorem histMatch_getWritten (w : List (String × List (String × String)))
    (d s h : String) (hm : histMatch w d s h = true) :
    getWritten w d s = some h := by
  unfold histMatch at hm
  cases hg : getWritten w d s with
  | none => rw [hg] at hm; cases hm
  | some h' =>
    rw [hg] at hm
    simp only [Bool.and_eq_true, beq_iff_eq] at hm
    rw [hm.2]

theorem ppw_getWritten_self (cu : Bool) (d s : String) (f : Bool)
    (h : String) (sz : Nat) (c : List Nat) (st : PPState) :
    getWritten ((postProcessWrite cu d s f h sz c st).1).written d s
      = some h := by
  unfold postProcessWrite
  by_cases hskip : (!cu && histMatch st.written d s h) = true
  · simp only [hskip, if_true]
    exact histMatch_getWritten _ _ _ _ (Bool.and_elim_right hskip)
  · simp only [hskip, if_false]
    by_cases hex : ((lookupA st.assets (normalizePath d)).isSome && !f) = true <;>
      simp [hex, getWritten_set_self]

theorem ppw_getWritten_other (cu : Bool) (d s : String) (f : Bool)
    (h : String) (sz : Nat) (c : List Nat) (st : PPState) (d' s' : String)
    (hne : ¬(d' = d ∧ s' = s)) :
    getWritten ((postProcessWrite cu d s f h sz c st).1).written d' s'
      = getWritten st.written d' s' := by
  unfold postProcessWrite
  by_cases hskip : (!cu && histMatch st.written d s h) = true
  · simp [hskip]
  · by_cases hex : ((lookupA st.assets (normalizePath d)).isSome && !f) = true <;>
      simp [hskip, hex, getWritten_set_other _ _ _ _ _ _ hne]

theorem runPass_written_preserved (cu : Bool) (items : List ResolvedWrite)
    (st : PPState) (d s h : String)
    (hst : getWritten st.written d s = some h)
    (hitems : ∀ it ∈ items, it.webpackTo = d → it.absoluteFrom = s →
      it.hash = h) :
    getWritten ((runPass cu items st).1).written d s = some h := by
  induction items generalizing st with
  | nil => simpa [runPass]
  | cons it rest ih =>
    simp only [runPass]
    apply ih
    · by_cases hit : d = it.webpackTo ∧ s = it.absoluteFrom
      · obtain ⟨h1, h2⟩ := hit
        have hh : it.hash = h :=
          hitems it (List.mem_cons_self _ _) h1.symm h2.symm
        rw [h1, h2, ppw_getWritten_self, hh]
      · rw [ppw_getWritten_other _ _ _ _ _ _ _ _ _ _ hit]
        exact hst
    · intro jt hjt
      exact hitems jt (List.mem_cons_of_mem _ hjt)

theorem runPass_written_covers (cu : Bool) (items : List ResolvedWrite)
    (st : PPState)
    (hcons : ∀ it ∈ items, ∀ jt ∈ items, it.webpackTo = jt.webpackTo →
      it.absoluteFrom = jt.absoluteFrom → it.hash = jt.hash) :
    ∀ it ∈ items,
      getWritten ((runPass cu items st).1).written it.webpackTo it.absoluteFrom
        = some it.hash := by
  induction items generalizing st with
  | nil => intro it hit; cases hit
  | cons hd rest ih =>
    intro it hit
    simp only [runPass]
    rcases List.mem_cons.mp hit with heq | hmem
    · subst heq
      apply runPass_written_preserved
      · exact ppw_getWritten_self _ _ _ _ _ _ _ _
      · intro jt hjt e1 e2
        exact hcons jt (List.mem_cons_of_mem _ hjt) it (List.mem_cons_self _ _)
          e1 e2
    · exact ih _
        (fun a ha b hb => hcons a (List.mem_cons_of_mem _ ha) b
          (List.mem_cons_of_mem _ hb)) it hmem

theorem ppw_skip (d s : String) (f : Bool) (h : String) (sz : Nat)
    (c : List Nat) (st : PPState) (hh : h ≠ "")
    (hst : getWritten st.written d s = some h) :
    postProcessWrite false d s f h sz c st = (st, false) := by
  unfold postProcessWrite histMatch
  rw [hst]
  simp [hh]

theorem runPass_skip_all (items : List ResolvedWrite) (st : PPState)
    (hall : ∀ it ∈ items, it.hash ≠ "" ∧
      getWritten st.written it.webpackTo it.absoluteFrom = some it.hash) :
    runPass false items st = (st, []) := by
  induction items with
  | nil => rfl
  | cons hd rest ih =>
    have hhd := hall hd (List.mem_cons_self _ _)
    simp only [runPass, ppw_skip hd.webpackTo hd.absoluteFrom hd.force hd.hash
      hd.statSize hd.content st hhd.1 hhd.2]
    rw [ih (fun it hit => hall it (List.mem_cons_of_mem _ hit))]
    simp

/-- An asset was committed by the write decision only through its final
branch, which records the stat size and the final content bytes. -/
theorem ppw_wrote_entry (cu : Bool) (d s : String) (f : Bool) (h : String)
    (sz : Nat) (c : List Nat) (st : PPState)
    (hwrote : (postProcessWrite cu d s f h sz c st).2 = true) :
    lookupA (postProcessWrite cu d s f h sz c st).1.assets (normalizePath d)
      = some ⟨sz, c⟩ := by
  unfold postProcessWrite at hwrote ⊢
  by_cases hskip : (!cu && histMatch st.written d s h) = true
  · rw [if_pos hskip] at hwrote
    simp at hwrote
  · rw [if_neg hskip] at hwrote ⊢
    by_cases hex : ((lookupA st.assets (normalizePath d)).isSome && !f) = true
    · rw [if_pos hex] at hwrote
      simp at hwrote
    · rw [if_neg hex]
      exact lookupA_setA_self _ _ _

/-! ### Claim theorems -/

/-- Claim C1, counterexample: two resolved files of one pass sharing the
same destination and source but carrying different content hashes (two
patterns copying the same source to the same destination through different
transforms, force set) make the second pass commit assets again even though
the source content is unchanged and copyUnmodified is off — the write log
of the second pass is not empty. -/
theorem c1_counterexample :
    (runPass false
        [⟨"out.txt", "/ctx/a.txt", true, "h1", 3, [1, 1, 1]⟩,
         ⟨"out.txt", "/ctx/a.txt", true, "h2", 3, [2, 2, 2]⟩]
        (runPass false
          [⟨"out.txt", "/ctx/a.txt", true, "h1", 3, [1, 1, 1]⟩,
           ⟨"out.txt", "/ctx/a.txt", true, "h2", 3, [2, 2, 2]⟩]
          ⟨[], []⟩).1).2 ≠ [] := by decide

/-- Claim C1, amended: with copyUnmodified off, unchanged source content
(each file carries the same nonempty content hash on both passes), and no
two resolved files of the pass sharing a (destination, source) pair with
different hashes, the second pass commits no asset at all — every file is
skipped by the write-history hash match — and leaves the state untouched. -/
theorem c1_second_pass_silent (items : List ResolvedWrite) (st0 : PPState)
    (hcons : ∀ it ∈ items, ∀ jt ∈ items, it.webpackTo = jt.webpackTo →
      it.absoluteFrom = jt.absoluteFrom → it.hash = jt.hash)
    (hne : ∀ it ∈ items, it.hash ≠ "") :
    runPass false items (runPass false items st0).1
      = ((runPass false items st0).1, []) := by
  apply runPass_skip_all
  intro it hit
  exact ⟨hne it hit, runPass_written_covers false items st0 hcons it hit⟩

/-- Witness for the amended claim C1 at a concrete one-file pass. -/
theorem c1_second_pass_silent_witness :
    (∀ it ∈ ([⟨"a.js", "/ctx/a.js", false, "h1", 3, [1, 2, 3]⟩] :
        List ResolvedWrite), it.hash ≠ "")
    ∧ runPass false [⟨"a.js", "/ctx/a.js", false, "h1", 3, [1, 2, 3]⟩]
        (runPass false [⟨"a.js", "/ctx/a.js", false, "h1", 3, [1, 2, 3]⟩]
          ⟨[], []⟩).1
      = ((runPass false [⟨"a.js", "/ctx/a.js", false, "h1", 3, [1, 2, 3]⟩]
          ⟨[], []⟩).1, []) :=
  ⟨by decide, c1_second_pass_silent _ _ (by decide) (by decide)⟩

/-- Claim C4, counterexample: with a transform that doubles the bytes, the
committed entry keeps the stat size (3) while the transformed byte length
is 6 — size() does not equal the transformed byte length. -/
theorem c4_counterexample :
    (postProcessFile false (some fun c => c ++ c) false "k" (fun _ => "h")
        "out" "/ctx/a.bin" false ⟨false, 3⟩ [7, 7, 7] [] ⟨[], []⟩).2.1.assets
      = [("out", ⟨3, [7, 7, 7, 7, 7, 7]⟩)]
    ∧ (3 : Nat) ≠ List.length [7, 7, 7, 7, 7, 7] := by decide

/-- Claim C4, amended: every entry committed by the write decision has
size() equal to the stat size of the source file — even when a transform
changed the byte length — and source() returning the final (possibly
transformed) content bytes. -/
theorem c4_committed_entry (cu : Bool)
    (transform : Option (List Nat → List Nat)) (cacheEnabled : Bool)
    (cacheKey : String) (hashFn : List Nat → String)
    (webpackTo absoluteFrom : String) (force : Bool) (stats : PPStats)
    (raw : List Nat) (store : List (String × List Nat)) (st : PPState)
    (hdir : stats.isDir = false)
    (hwrote : (postProcessFile cu transform cacheEnabled cacheKey hashFn
      webpackTo absoluteFrom force stats raw store st).2.2.1 = true) :
    lookupA (postProcessFile cu transform cacheEnabled cacheKey hashFn
        webpackTo absoluteFrom force stats raw store st).2.1.assets
        (normalizePath webpackTo)
      = some ⟨stats.size,
          (contentStage transform cacheEnabled cacheKey store raw).2.1⟩ := by
  simp only [postProcessFile, hdir, Bool.false_eq_true, if_false] at hwrote ⊢
  exact ppw_wrote_entry _ _ _ _ _ _ _ _ hwrote

/-- Witness for the amended claim C4 at a concrete length-doubling
transform. -/
theorem c4_committed_entry_witness :
    ((⟨false, 3⟩ : PPStats).isDir = false)
    ∧ ((postProcessFile false (some fun c => c ++ c) false "k" (fun _ => "h")
        "out" "/ctx/a.bin" false ⟨false, 3⟩ [7, 7, 7] [] ⟨[], []⟩).2.2.1 = true)
    ∧ lookupA (postProcessFile false (some fun c => c ++ c) false "k"
        (fun _ => "h") "out" "/ctx/a.bin" false ⟨false, 3⟩ [7, 7, 7] []
        ⟨[], []⟩).2.1.assets (normalizePath "out")
      = some ⟨(⟨false, 3⟩ : PPStats).size,
          (contentStage (some fun c => c ++ c) false "k" [] [7, 7, 7]).2.1⟩ :=
  ⟨rfl, by decide,
    c4_committed_entry false (some fun c => c ++ c) false "k" (fun _ => "h")
      "out" "/ctx/a.bin" false ⟨false, 3⟩ [7, 7, 7] [] ⟨[], []⟩ rfl (by decide)⟩

/-- Claim C5: with a transform and the cache enabled, across two passes on
the same input content and the same pattern identity (hence the same
computed cache key) the transform runs at most once, the second pass
returns the bytes of the first, and after the first pass the result sits in
the store under the computed key. -/
theorem c5_transform_cached_once (t : List Nat → List Nat)
    (keyOverride : Option String) (patternId contentHash : String)
    (store : List (String × List Nat)) (content : List Nat) :
    (transformStage t true (computeCacheKey keyOverride patternId contentHash)
        store content).2.2
      + (transformStage t true
          (computeCacheKey keyOverride patternId contentHash)
          (transformStage t true
            (computeCacheKey keyOverride patternId contentHash)
            store content).1 content).2.2 ≤ 1
    ∧ (transformStage t true
        (computeCacheKey keyOverride patternId contentHash)
        (transformStage t true
          (computeCacheKey keyOverride patternId contentHash)
          store content).1 content).2.1
      = (transformStage t true
          (computeCacheKey keyOverride patternId contentHash)
          store content).2.1
    ∧ lookupA (transformStage t true
        (computeCacheKey keyOverride patternId contentHash) store content).1
        (computeCacheKey keyOverride patternId contentHash)
      = some (transformStage t true
          (computeCacheKey keyOverride patternId contentHash)
          store content).2.1 := by
  cases h : lookupA store (computeCacheKey keyOverride patternId contentHash) with
  | some data => simp [transformStage, h]
  | none => simp [transformStage, h, lookupA_setA_self]

/-- Claim C2, counterexample: the glob scenario (pattern from src/**/*.js,
no destination, matches src/a.js and src/lib/b.js) does not produce the
asset keys a.js and lib/b.js — neither key exists in the asset table the
emit pass builds. -/
theorem c2_counterexample :
    keysA (runEmit (fun _ _ => false)
        ⟨fun p =>
            if p = "/ctx/src/a.js" || p = "/ctx/src/lib/b.js" then
              .ok ⟨false, 5, 1⟩
            else .error .notFound,
          fun pat _ =>
            if pat = "src/**/*.js" then .ok ["src/a.js", "src/lib/b.js"]
            else .ok [],
          fun _ => .ok []⟩
        "/ctx" "/ctx" [] 0 [⟨"src/**/*.js", none, none, false⟩]
        ⟨[], [], [], [], []⟩).assets ≠ ["a.js", "lib/b.js"]
    ∧ lookupA (runEmit (fun _ _ => false)
        ⟨fun p =>
            if p = "/ctx/src/a.js" || p = "/ctx/src/lib/b.js" then
              .ok ⟨false, 5, 1⟩
            else .error .notFound,
          fun pat _ =>
            if pat = "src/**/*.js" then .ok ["src/a.js", "src/lib/b.js"]
            else .ok [],
          fun _ => .ok []⟩
        "/ctx" "/ctx" [] 0 [⟨"src/**/*.js", none, none, false⟩]
        ⟨[], [], [], [], []⟩).assets "a.js" = none := by decide

/-- Claim C2, amended: in that scenario the emit pass produces exactly the
asset keys src/a.js and src/lib/b.js — each glob match keeps its full path
relative to the base directory (the compiler context, equal here to the
working directory), so the glob prefix is preserved rather than re-rooted
at the glob base — and no error is recorded. -/
theorem c2_glob_subdir_keys :
    keysA (runEmit (fun _ _ => false)
        ⟨fun p =>
            if p = "/ctx/src/a.js" || p = "/ctx/src/lib/b.js" then
              .ok ⟨false, 5, 1⟩
            else .error .notFound,
          fun pat _ =>
            if pat = "src/**/*.js" then .ok ["src/a.js", "src/lib/b.js"]
            else .ok [],
          fun _ => .ok []⟩
        "/ctx" "/ctx" [] 0 [⟨"src/**/*.js", none, none, false⟩]
        ⟨[], [], [], [], []⟩).assets = ["src/a.js", "src/lib/b.js"]
    ∧ (runEmit (fun _ _ => false)
        ⟨fun p =>
            if p = "/ctx/src/a.js" || p = "/ctx/src/lib/b.js" then
              .ok ⟨false, 5, 1⟩
            else .error .notFound,
          fun pat _ =>
            if pat = "src/**/*.js" then .ok ["src/a.js", "src/lib/b.js"]
            else .ok [],
          fun _ => .ok []⟩
        "/ctx" "/ctx" [] 0 [⟨"src/**/*.js", none, none, false⟩]
        ⟨[], [], [], [], []⟩).errors = [] := by decide

/-- Claim C3, counterexample: a stat failure that is not "not found"
(access denied) is not collected into the error list — the emit pass ends
with an unchanged state and an empty error list, because the catch on the
stat swallows every error kind and the empty glob fallback is a silent
no-op. -/
theorem c3_counterexample :
    runEmit (fun _ _ => false)
        ⟨fun _ => .error .accessDenied, fun _ _ => .ok [], fun _ => .ok []⟩
        "/ctx" "/ctx" [] 0 [⟨"secret.txt", none, none, false⟩]
        ⟨[], [], [], [], []⟩
      = ⟨[], [], [], [], []⟩ := by decide

/-- Claim C3, amended: every stat failure on the resolved source, of any
kind, is swallowed and treated as "not found": the pattern is retried as a
glob, and a glob that yields zero matches is a silent no-op — the emit
pass leaves the state, including the error list, unchanged. -/
theorem c3_stat_failure_swallowed (m : String → String → Bool) (fs : FS)
    (baseDir cwd : String) (ignoreList : List String) (lgu : Nat)
    (p : Pattern) (st : EmitState) (e : IOErr)
    (hstat : fs.stat (posixResolveStr cwd [baseDir, p.fromSrc]) = .error e)
    (hglob : fs.glob p.fromSrc baseDir = .ok []) :
    runEmit m fs baseDir cwd ignoreList lgu [p] st = st := by
  simp [runEmit, processPattern, processGlobBranch, processGlobFiles, hstat,
    hglob]

/-- Witness for the amended claim C3 at a concrete access-denied
filesystem. -/
theorem c3_stat_failure_swallowed_witness :
    ((⟨fun _ => .error .accessDenied, fun _ _ => .ok [], fun _ => .ok []⟩ :
        FS).stat
      (posixResolveStr "/ctx" ["/ctx",
        (⟨"secret.txt", none, none, false⟩ : Pattern).fromSrc])
      = .error .accessDenied)
    ∧ ((⟨fun _ => .error .accessDenied, fun _ _ => .ok [], fun _ => .ok []⟩ :
        FS).glob (⟨"secret.txt", none, none, false⟩ : Pattern).fromSrc "/ctx"
      = .ok [])
    ∧ runEmit (fun _ _ => false)
        ⟨fun _ => .error .accessDenied, fun _ _ => .ok [], fun _ => .ok []⟩
        "/ctx" "/ctx" [] 0 [⟨"secret.txt", none, none, false⟩]
        ⟨[], [], [], [], []⟩
      = ⟨[], [], [], [], []⟩ :=
  ⟨rfl, rfl,
    c3_stat_failure_swallowed (fun _ _ => false)
      ⟨fun _ => .error .accessDenied, fun _ _ => .ok [], fun _ => .ok []⟩
      "/ctx" "/ctx" [] 0 ⟨"secret.txt", none, none, false⟩
      ⟨[], [], [], [], []⟩ .accessDenied rfl rfl⟩

/-- Claim C6: for a pattern whose destination is absolute and looks like a
directory, a glob-matched file not excluded by the ignore list is copied to
the destination joined with the file's base name. -/
theorem c6_absolute_dir_destination (m : String → String → Bool) (fs : FS)
    (baseDir cwd : String) (ignoreList : List String) (lgu : Nat)
    (pattern : Pattern) (statFound : Bool) (st : EmitState)
    (relFileSrc t : String)
    (hto : pattern.toDest = some t) (habs : strIsAbs t = true)
    (hdir : toLooksLikeDirectory pattern = true)
    (hig : shouldIgnore m relFileSrc ignoreList = false) :
    (processGlobMatch m fs baseDir cwd ignoreList lgu pattern statFound st
        relFileSrc).1.effects
      = st.effects ++ [.directCopy (posixResolveStr cwd [baseDir, relFileSrc])
          (posixJoin t
            (posixBasename (posixResolveStr cwd [baseDir, relFileSrc])))] := by
  simp [processGlobMatch, hig, hto, habs, hdir]

/-- Witness for claim C6 at a concrete pattern with an absolute extensionless
destination. -/
theorem c6_absolute_dir_destination_witness :
    ((⟨"assets", some "/out", none, false⟩ : Pattern).toDest = some "/out")
    ∧ strIsAbs "/out" = true
    ∧ toLooksLikeDirectory ⟨"assets", some "/out", none, false⟩ = true
    ∧ shouldIgnore (fun _ _ => false) "sub/a.js" [] = false
    ∧ (processGlobMatch (fun _ _ => false)
        ⟨fun _ => .error .notFound, fun _ _ => .ok [], fun _ => .ok []⟩
        "/ctx" "/ctx" [] 0 ⟨"assets", some "/out", none, false⟩ false
        ⟨[], [], [], [], []⟩ "sub/a.js").1.effects
      = [] ++ [.directCopy (posixResolveStr "/ctx" ["/ctx", "sub/a.js"])
          (posixJoin "/out"
            (posixBasename (posixResolveStr "/ctx" ["/ctx", "sub/a.js"])))] :=
  ⟨rfl, rfl, by decide, by decide,
    c6_absolute_dir_destination (fun _ _ => false)
      ⟨fun _ => .error .notFound, fun _ _ => .ok [], fun _ => .ok []⟩
      "/ctx" "/ctx" [] 0 ⟨"assets", some "/out", none, false⟩ false
      ⟨[], [], [], [], []⟩ "sub/a.js" "/out" rfl rfl (by decide) (by decide)⟩

/-- Claim C9: a glob-matched file of a pattern with an absolute destination
that survives the ignore filter is copied directly — to the destination
joined with its base name when the destination looks like a directory, to
the destination itself otherwise — and the asset table and error list are
left unchanged for every filesystem, force flag and last-update tick, so
the existing-asset and mtime skip logic is never consulted. -/
theorem c9_absolute_dest_no_asset (m : String → String → Bool) (fs : FS)
    (baseDir cwd : String) (ignoreList : List String) (lgu : Nat)
    (pattern : Pattern) (statFound : Bool) (st : EmitState)
    (relFileSrc t : String)
    (hto : pattern.toDest = some t) (habs : strIsAbs t = true)
    (hig : shouldIgnore m relFileSrc ignoreList = false) :
    (processGlobMatch m fs baseDir cwd ignoreList lgu pattern statFound st
        relFileSrc).1.assets = st.assets
    ∧ (processGlobMatch m fs baseDir cwd ignoreList lgu pattern statFound st
        relFileSrc).1.errors = st.errors
    ∧ (processGlobMatch m fs baseDir cwd ignoreList lgu pattern statFound st
        relFileSrc).2 = none
    ∧ (processGlobMatch m fs baseDir cwd ignoreList lgu pattern statFound st
        relFileSrc).1.effects
      = st.effects ++ [.directCopy (posixResolveStr cwd [baseDir, relFileSrc])
          (if toLooksLikeDirectory pattern then
            posixJoin t
              (posixBasename (posixResolveStr cwd [baseDir, relFileSrc]))
          else t)] := by
  refine ⟨?_, ?_, ?_, ?_⟩ <;> simp [processGlobMatch, hig, hto, habs]

/-- Witness for claim C9 at a concrete pattern with an absolute
file-typed destination (copied to the destination itself). -/
theorem c9_absolute_dest_no_asset_witness :
    ((⟨"a.txt", some "/out/b.txt", some "file", false⟩ : Pattern).toDest
      = some "/out/b.txt")
    ∧ strIsAbs "/out/b.txt" = true
    ∧ shouldIgnore (fun _ _ => false) "a.txt" [] = false
    ∧ (processGlobMatch (fun _ _ => false)
        ⟨fun _ => .error .notFound, fun _ _ => .ok [], fun _ => .ok []⟩
        "/ctx" "/ctx" [] 0 ⟨"a.txt", some "/out/b.txt", some "file", false⟩
        false ⟨[], [], [], [], []⟩ "a.txt").1.assets = []
    ∧ (processGlobMatch (fun _ _ => false)
        ⟨fun _ => .error .notFound, fun _ _ => .ok [], fun _ => .ok []⟩
        "/ctx" "/ctx" [] 0 ⟨"a.txt", some "/out/b.txt", some "file", false⟩
        false ⟨[], [], [], [], []⟩ "a.txt").1.errors = []
    ∧ (processGlobMatch (fun _ _ => false)
        ⟨fun _ => .error .notFound, fun _ _ => .ok [], fun _ => .ok []⟩
        "/ctx" "/ctx" [] 0 ⟨"a.txt", some "/out/b.txt", some "file", false⟩
        false ⟨[], [], [], [], []⟩ "a.txt").2 = none
    ∧ (processGlobMatch (fun _ _ => false)
        ⟨fun _ => .error .notFound, fun _ _ => .ok [], fun _ => .ok []⟩
        "/ctx" "/ctx" [] 0 ⟨"a.txt", some "/out/b.txt", some "file", false⟩
        false ⟨[], [], [], [], []⟩ "a.txt").1.effects
      = [] ++ [.directCopy (posixResolveStr "/ctx" ["/ctx", "a.txt"])
          (if toLooksLikeDirectory
              ⟨"a.txt", some "/out/b.txt", some "file", false⟩ then
            posixJoin "/out/b.txt"
              (posixBasename (posixResolveStr "/ctx" ["/ctx", "a.txt"]))
          else "/out/b.txt")] := by
  refine ⟨rfl, rfl, by decide, ?_⟩
  exact c9_absolute_dest_no_asset (fun _ _ => false)
    ⟨fun _ => .error .notFound, fun _ _ => .ok [], fun _ => .ok []⟩
    "/ctx" "/ctx" [] 0 ⟨"a.txt", some "/out/b.txt", some "file", false⟩
    false ⟨[], [], [], [], []⟩ "a.txt" "/out/b.txt" rfl rfl (by decide)

/-- Claim C7, counterexample: the ignore list containing the empty-string
glob against the empty relative path — the matcher accepts (the minimatch
blank-pattern rule: a blank pattern matches exactly the empty path), yet
shouldIgnore returns false, because the found glob is the empty string and
the JS truthiness test on it fails. -/
theorem c7_counterexample :
    shouldIgnore minimatchModel "" [""] = false
    ∧ minimatchModel "" "" = true := by decide

/-- Claim C7, amended: for every matcher and every ignore list whose globs
are all nonempty strings, shouldIgnore returns true exactly when some glob
in the list matches the path; in particular the empty list yields false.
The embedding is a total function: no side effects, no errors. -/
theorem c7_should_ignore_iff (m : String → String → Bool) (pathName : String)
    (ignoreList : List String) (hne : ∀ g ∈ ignoreList, g ≠ "") :
    shouldIgnore m pathName ignoreList = true
      ↔ ∃ g ∈ ignoreList, m pathName g = true := by
  induction ignoreList with
  | nil => simp [shouldIgnore]
  | cons g rest ih =>
    have hrest := ih (fun a ha => hne a (List.mem_cons_of_mem _ ha))
    by_cases hm : m pathName g = true
    · have hg : g ≠ "" := hne g (List.mem_cons_self _ _)
      unfold shouldIgnore
      rw [List.find?_cons_of_pos _ hm]
      simp only [decide_eq_true_eq]
      constructor
      · intro _
        exact ⟨g, List.mem_cons_self _ _, hm⟩
      · intro _
        exact hg
    · unfold shouldIgnore
      rw [List.find?_cons_of_neg _ (by simp [hm])]
      unfold shouldIgnore at hrest
      rw [hrest]
      constructor
      · rintro ⟨a, ha, hma⟩
        exact ⟨a, List.mem_cons_of_mem _ ha, hma⟩
      · rintro ⟨a, ha, hma⟩
        rcases List.mem_cons.mp ha with rfl | ha'
        · exact absurd hma hm
        · exact ⟨a, ha', hma⟩

/-- Witness for the amended claim C7 at a concrete basename-matching
ignore glob. -/
theorem c7_should_ignore_iff_witness :
    (∀ g ∈ ["b.js"], g ≠ "")
    ∧ (shouldIgnore minimatchModel "src/b.js" ["b.js"] = true
        ↔ ∃ g ∈ ["b.js"], minimatchModel "src/b.js" g = true) :=
  ⟨by decide, c7_should_ignore_iff minimatchModel "src/b.js" ["b.js"]
    (by decide)⟩

/-- Claim C8: a patterns argument that is neither undefined nor an array
makes the factory fail synchronously with the configuration error; the
factory is pure, so no filesystem work and no asset-table mutation can
precede the failure — the emit pass only ever runs on a successfully
returned pattern list. -/
theorem c8_non_array_throws (desc : String) :
    copyWebpackPlugin (.notAnArray desc)
      = .error "CopyWebpackPlugin: patterns must be an array" := rfl

/-- Claim C10: an undefined patterns argument is replaced by the empty
pattern list — construction succeeds rather than raising the not-a-list
error — and the emit pass over the empty list leaves every component of
the compilation state untouched: no assets, no dependencies, no copies, no
errors. -/
theorem c10_undefined_patterns_noop :
    copyWebpackPlugin .undef = .ok []
    ∧ ∀ (m : String → String → Bool) (fs : FS) (baseDir cwd : String)
        (ignoreList : List String) (lgu : Nat) (st : EmitState),
        runEmit m fs baseDir cwd ignoreList lgu [] st = st :=
  ⟨rfl, fun _ _ _ _ _ _ _ => rfl⟩
